import Mathlib

/-!
Verification of the Shield bridge orchestrator against its source.

The definitions below are a shallow embedding of:
* src/backend/migrations/005_create_solana_wallets.sql (ledger schema,
  indexes, the updated_at trigger);
* src/frontend/lib/api/solana.ts (the API client's request shapes);
* src/frontend/components/wallet/BridgeModal.tsx (quote / execute /
  status-monitoring flow of the bridge modal).

Machine numbers are modelled exactly: SQL BIGINT columns and JavaScript
amounts in minor units are Int, JavaScript floating-point amounts entered
by the user are exact rationals (IEEE-754 rounding is abstracted away; the
concrete inputs used in counterexamples below evaluate identically under
IEEE doubles). Fallible network calls are inputs of type Except.
-/

namespace Shield

/-! ## Ledger schema: migration 005 -/

/-- One row of the bridge_transactions table, fields as declared in
005_create_solana_wallets.sql. Timestamps are abstract instants (Int). -/
structure BridgeRow where
  id : String
  user_id : String
  solana_tx_signature : Option String
  deposit_address : String
  amount_sol_lamports : Int
  expected_zec_zatoshis : Option Int
  status : String
  error_message : Option String
  near_intent_hashes : Option (List String)
  near_tx_hashes : Option (List String)
  zec_tx_hash : Option String
  actual_zec_zatoshis : Option Int
  refund_address : String
  recipient_address : String
  created_at : Int
  updated_at : Int
  completed_at : Option Int
deriving DecidableEq, Repr

/-- An index created by a CREATE INDEX statement: name, table, indexed
column, and whether the statement used CREATE UNIQUE INDEX. -/
structure IndexSpec where
  name : String
  table : String
  column : String
  isUnique : Bool
deriving DecidableEq, Repr

/-- The six CREATE INDEX statements of migration 005, transcribed from the
source. None of them is a CREATE UNIQUE INDEX. -/
def migration005Indexes : List IndexSpec :=
  [ ⟨"idx_solana_wallets_user_id", "solana_wallets", "user_id", false⟩,
    ⟨"idx_solana_wallets_public_key", "solana_wallets", "public_key", false⟩,
    ⟨"idx_bridge_transactions_user_id", "bridge_transactions", "user_id", false⟩,
    ⟨"idx_bridge_transactions_status", "bridge_transactions", "status", false⟩,
    ⟨"idx_bridge_transactions_deposit_address", "bridge_transactions", "deposit_address", false⟩,
    ⟨"idx_bridge_transactions_created_at", "bridge_transactions", "created_at", false⟩ ]

/-- Every uniqueness constraint migration 005 declares, as (table, column)
pairs: the PRIMARY KEY of each table, the UNIQUE modifier on
solana_wallets.public_key, and the table constraint UNIQUE(user_id) on
solana_wallets. bridge_transactions carries no uniqueness constraint other
than its primary key. -/
def migration005UniqueConstraints : List (String × String) :=
  [ ("solana_wallets", "id"),
    ("solana_wallets", "public_key"),
    ("solana_wallets", "user_id"),
    ("bridge_transactions", "id") ]

/-- The cross-row invariant the bridge_transactions DDL enforces on a table
state: rows have pairwise-distinct primary keys (id). The DDL declares no
other cross-row constraint on this table. -/
def bridgeTableAdmissible (rows : List BridgeRow) : Prop :=
  (rows.map (fun r => r.id)).Nodup

instance (rows : List BridgeRow) : Decidable (bridgeTableAdmissible rows) := by
  unfold bridgeTableAdmissible; infer_instance

/-- Trigger function update_updated_at_column(): BEGIN NEW.updated_at = NOW();
RETURN NEW; END. Applied BEFORE UPDATE FOR EACH ROW by the trigger
update_bridge_transactions_updated_at. -/
def update_updated_at_column (now : Int) (newRow : BridgeRow) : BridgeRow :=
  { newRow with updated_at := now }

/-- Row-level semantics of an UPDATE statement on bridge_transactions under
the BEFORE UPDATE trigger: each row matched by the WHERE clause is replaced
by its SET-clause image after that image passes through the trigger; other
rows are untouched. -/
def bridgeUpdate (now : Int) (whereClause : BridgeRow → Bool)
    (setClause : BridgeRow → BridgeRow) (rows : List BridgeRow) : List BridgeRow :=
  rows.map fun r => if whereClause r then update_updated_at_column now (setClause r) else r

/-- Fallback row used with List.getD in statements about table updates. -/
def defaultBridgeRow : BridgeRow where
  id := ""
  user_id := ""
  solana_tx_signature := none
  deposit_address := ""
  amount_sol_lamports := 0
  expected_zec_zatoshis := none
  status := "PENDING"
  error_message := none
  near_intent_hashes := none
  near_tx_hashes := none
  zec_tx_hash := none
  actual_zec_zatoshis := none
  refund_address := ""
  recipient_address := ""
  created_at := 0
  updated_at := 0
  completed_at := none

/-- A concrete admissible row: distinct id, shared deposit address D1. -/
def exampleRowA : BridgeRow :=
  { defaultBridgeRow with
      id := "a", user_id := "u1", deposit_address := "D1",
      amount_sol_lamports := 1000000000, refund_address := "S1", recipient_address := "Z1" }

/-- A second concrete row with a different id but the same deposit address. -/
def exampleRowB : BridgeRow :=
  { defaultBridgeRow with
      id := "b", user_id := "u2", deposit_address := "D1",
      amount_sol_lamports := 2000000000, refund_address := "S2", recipient_address := "Z2" }

/-! ## Amount parsing and conversion (BridgeModal.tsx) -/

/-- Whether a character is a decimal digit. -/
def isDigitChar (c : Char) : Bool := '0' ≤ c && c ≤ '9'

/-- The natural number denoted by a list of decimal digit characters. -/
def natOfDigits (ds : List Char) : Nat :=
  ds.foldl (fun acc c => 10 * acc + (c.toNat - '0'.toNat)) 0

/-- Embeds JavaScript parseFloat on the plain decimal strings an HTML
number input produces: an optional sign, then an integer part and/or a
'.'-separated fractional part; the longest numeric prefix is parsed and
trailing characters are ignored; none models NaN (no leading digits).
Exponent notation is not modelled. The value is the exact rational the
string denotes; IEEE-754 rounding is abstracted away, and every concrete
string used below yields the same downstream integer under IEEE doubles. -/
def parseFloatQ (s : String) : Option ℚ :=
  let cs := s.toList
  let signed := match cs with
    | '-' :: rest => (true, rest)
    | '+' :: rest => (false, rest)
    | _ => (false, cs)
  let intPart := signed.2.takeWhile isDigitChar
  let afterInt := signed.2.dropWhile isDigitChar
  let fracPart := match afterInt with
    | '.' :: rest => rest.takeWhile isDigitChar
    | _ => []
  if intPart.isEmpty && fracPart.isEmpty then none
  else
    let den : Nat := 10 ^ fracPart.length
    let q : ℚ := mkRat (natOfDigits intPart * den + natOfDigits fracPart) den
    some (if signed.1 then -q else q)

/-- Math.floor(a * 1_000_000_000) for an exact rational a. Computed as the
floor of (a.num * 10^9) / a.den so that concrete instances reduce inside
the kernel; lamportsQ_eq_floor below proves it equal to ⌊a * 1000000000⌋. -/
def lamportsQ (a : ℚ) : Int :=
  (mkRat (a.num * 1000000000) a.den).floor

/-- Math.floor(parseFloat(amount) * 1_000_000_000), the conversion both
handleGetQuote and handleExecuteBridge apply to the entered amount string;
none models the NaN case. -/
def lamportsOfString (s : String) : Option Int :=
  (parseFloatQ s).map lamportsQ

/-- The amount checks handleGetQuote applies before issuing the quote
request: a non-empty string that parses to a number that is positive and
does not exceed the current balance. -/
def quoteChecksPass (amount : String) (currentBalance : ℚ) : Bool :=
  if amount = "" then false
  else
    match parseFloatQ amount with
    | none => false
    | some a => if a ≤ 0 then false else if currentBalance < a then false else true

/-! ## API client request shapes (lib/api/solana.ts) -/

/-- A request the SolanaAPI client can issue for the bridge flow, with the
payload fields the claims are about. An amount of none models a NaN
amount_lamports field. -/
inductive ApiCall where
  | bridgeQuote (amount_lamports : Option Int) (recipient_zcash_address : String)
  | bridgeExecute (amount_lamports : Option Int) (recipient_zcash_address : String)
  | bridgeStatus (deposit_address : String)
deriving DecidableEq, Repr

/-- The endpoint each request is POSTed to, from lib/api/solana.ts. -/
def ApiCall.endpoint : ApiCall → String
  | .bridgeQuote _ _ => "/solana/bridge/quote"
  | .bridgeExecute _ _ => "/solana/bridge/execute"
  | .bridgeStatus _ => "/solana/bridge/status"

/-- Modelled from the spec: whether an operation writes to the ledger. The
backend handlers are not part of the source tree; the spec states that a
quote has no ledger side effect ("a quote does not create a
BridgeTransaction row"), that execute persists a new PENDING row, and that
GetStatus is a read (rows are "mutated exclusively by DepositWatcher and
StatusReconciler"). -/
def mutatesLedger : ApiCall → Bool
  | .bridgeQuote _ _ => false
  | .bridgeExecute _ _ => true
  | .bridgeStatus _ => false

/-- Modelled from the spec: the ledger effect of serving a quote request —
"Side effect: none on the ledger — a quote does not create a
BridgeTransaction row." The backend quote handler itself is absent from
the source tree. -/
def quoteLedgerEffect (rows : List BridgeRow) : List BridgeRow := rows

/-- BridgeQuoteResponse, from lib/api/solana.ts. -/
structure QuoteResponse where
  amount_in : String
  amount_in_formatted : String
  amount_out : String
  amount_out_formatted : String
  deposit_address : String
  time_estimate : Int
deriving DecidableEq, Repr

/-- ExecuteBridgeResponse, from lib/api/solana.ts. -/
structure ExecResponse where
  bridge_tx_id : String
  solana_signature : String
  deposit_address : String
  expected_zec : String
deriving DecidableEq, Repr

/-! ## Bridge modal state (BridgeModal.tsx) -/

/-- The BridgeStep union type of BridgeModal.tsx. -/
inductive BridgeStep where
  | input
  | quote
  | executing
  | monitoring
  | success
  | error
deriving DecidableEq, Repr

/-- The modal's React state. quoteSentLamports records the amount_lamports
field of the request that produced the currently held quote (meaningful
only while quote is some); bridgeStatus records the status field of the
last successful status response. -/
structure ModalState where
  amount : String
  step : BridgeStep
  error : Option String
  quote : Option QuoteResponse
  quoteSentLamports : Option Int
  bridgeResult : Option ExecResponse
  bridgeStatus : Option String
deriving DecidableEq, Repr

/-- The modal's initial state, also the state handleClose resets to. -/
def initState : ModalState where
  amount := ""
  step := .input
  error := none
  quote := none
  quoteSentLamports := none
  bridgeResult := none
  bridgeStatus := none

/-- Embeds handleGetQuote. The server's response (Except.ok) or the thrown
error message (Except.error) is an input; the result is the updated modal
state together with the API requests issued. The dynamic part of the
insufficient-balance message (the formatted balance) is elided. -/
def handleGetQuote (zcashAddress : String) (currentBalance : ℚ)
    (resp : Except String QuoteResponse) (s : ModalState) : ModalState × List ApiCall :=
  if s.amount = "" then ({ s with error := some "Please enter an amount" }, [])
  else
    match parseFloatQ s.amount with
    | none => ({ s with error := some "Please enter a valid amount" }, [])
    | some amountNum =>
      if amountNum ≤ 0 then ({ s with error := some "Please enter a valid amount" }, [])
      else if currentBalance < amountNum then
        ({ s with error := some "Insufficient balance" }, [])
      else
        let amountLamports : Int := lamportsQ amountNum
        let call := ApiCall.bridgeQuote (some amountLamports) zcashAddress
        match resp with
        | .ok q =>
            ({ s with error := none, quote := some q,
                      quoteSentLamports := some amountLamports, step := .quote }, [call])
        | .error e => ({ s with error := some e }, [call])

/-! ## Status monitoring (startMonitoring in BridgeModal.tsx) -/

/-- Embeds the checkStatus closure. The poll's outcome is an input:
Except.error models a thrown getBridgeStatus call (network failure or
non-OK HTTP response, caught and logged), Except.ok carries the status
string of a successful response. Returns the updated state and the value
checkStatus returns (true = monitoring is done). -/
def checkStatus (resp : Except Unit String) (s : ModalState) : ModalState × Bool :=
  match resp with
  | .error _ => (s, false)
  | .ok st =>
    let s1 := { s with bridgeStatus := some st }
    if st = "COMPLETED" ∨ st = "SUCCESS" then ({ s1 with step := .success }, true)
    else if st = "FAILED" ∨ st = "ERROR" then
      ({ s1 with step := .error, error := some "Bridge transaction failed" }, true)
    else (s1, false)

/-- Whether a poll outcome makes checkStatus report done, independent of
the current state. -/
def doneAtResp : Except Unit String → Bool
  | .error _ => false
  | .ok st =>
    if st = "COMPLETED" ∨ st = "SUCCESS" then true
    else if st = "FAILED" ∨ st = "ERROR" then true
    else false

/-- doneAtResp applied to the oracle of poll outcomes at attempt n
(attempts are numbered from 1, as by the attempts counter in poll). -/
def doneAtB (resps : Nat → Except Unit String) (n : Nat) : Bool :=
  doneAtResp (resps n)

/-- Terminal settlement outcomes as the spec defines them: SUCCESS, FAILED
or REFUNDED. Stated from the spec's words for comparison with the client
loop's stop condition. -/
def specTerminalStatus (st : String) : Bool :=
  st = "SUCCESS" || st = "FAILED" || st = "REFUNDED"

/-- The status strings on which the client monitoring loop actually stops. -/
def clientStopStatuses : List String := ["COMPLETED", "SUCCESS", "FAILED", "ERROR"]

/-- maxAttempts in startMonitoring: monitor for up to 5 minutes at a
5-second interval. -/
def maxAttempts : Nat := 60

/-- An observable action of the monitoring loop: an API request issued, or
a setTimeout scheduling the next poll after delayMs milliseconds. -/
inductive PollEvent where
  | call (c : ApiCall)
  | schedule (delayMs : Nat)
deriving DecidableEq, Repr

/-- The API requests in a list of poll events, in order. -/
def callsOf : List PollEvent → List ApiCall
  | [] => []
  | PollEvent.call c :: rest => c :: callsOf rest
  | PollEvent.schedule _ :: rest => callsOf rest

/-- Number of API requests in a list of poll events. -/
def callCount (evs : List PollEvent) : Nat :=
  evs.countP fun e => match e with | PollEvent.call _ => true | PollEvent.schedule _ => false

/-- Embeds the poll closure of startMonitoring: increment attempts, run
checkStatus (which issues one getBridgeStatus request), then either
schedule the next poll in 5000 ms, or — once the attempt budget is reached
— overwrite the state with the monitoring-timeout error. fuel bounds the
recursion; every use below passes fuel = maxAttempts - attempts, which the
attempts < maxAttempts guard never exhausts. -/
def pollLoop (dep : String) (resps : Nat → Except Unit String)
    (s : ModalState) (attempts : Nat) : Nat → ModalState × List PollEvent
  | 0 => (s, [])
  | fuel + 1 =>
    let a1 := attempts + 1
    let res := checkStatus (resps a1) s
    let ev := PollEvent.call (ApiCall.bridgeStatus dep)
    if res.2 = false ∧ a1 < maxAttempts then
      let next := pollLoop dep resps res.1 a1 fuel
      (next.1, ev :: PollEvent.schedule 5000 :: next.2)
    else if maxAttempts ≤ a1 then
      ({ res.1 with error := some "Bridge monitoring timeout. Please check status manually."
                    , step := .error }, [ev])
    else (res.1, [ev])

/-- Embeds startMonitoring: attempts starts at 0 and poll() is invoked
immediately. -/
def startMonitoring (dep : String) (resps : Nat → Except Unit String)
    (s : ModalState) : ModalState × List PollEvent :=
  pollLoop dep resps s 0 maxAttempts

/-- Embeds handleExecuteBridge. Guard: if (!quote || !amount) return. On a
successful response the modal moves to monitoring and startMonitoring runs
against the returned deposit address; on a thrown request the step becomes
error. The response and the status-poll oracle are inputs. -/
def handleExecuteBridge (zcashAddress : String)
    (execResp : Except String ExecResponse) (statusResps : Nat → Except Unit String)
    (s : ModalState) : ModalState × List PollEvent :=
  if s.quote.isNone ∨ s.amount = "" then (s, [])
  else
    let amountLamports := lamportsOfString s.amount
    let call := ApiCall.bridgeExecute amountLamports zcashAddress
    match execResp with
    | .error e => ({ s with step := .error, error := some e }, [PollEvent.call call])
    | .ok r =>
      let s1 := { s with error := none, step := .monitoring, bridgeResult := some r }
      let next := startMonitoring r.deposit_address statusResps s1
      (next.1, PollEvent.call call :: next.2)

/-- Structural well-formedness of a monitoring trace: requests and
setTimeout events alternate — every two consecutive requests are separated
by exactly one schedule of 5000 ms, and no schedule trails the last
request (no further poll after the loop stops). -/
def pollTraceShape : List PollEvent → Bool
  | [] => true
  | [PollEvent.call _] => true
  | PollEvent.call _ :: PollEvent.schedule d :: rest =>
      (d == 5000) && !rest.isEmpty && pollTraceShape rest
  | _ => false

/-! ## The modal as a transition system (for trace properties) -/

/-- A user-driven transition of the open modal. Each constructor carries
the network outcomes its handler consumes. setAmount models typing in the
amount input, which is rendered only in the input step; back and
executeBridge are buttons rendered only in the quote step; close is
enabled outside the executing/monitoring steps. -/
inductive UserAction where
  | setAmount (v : String)
  | getQuote (resp : Except String QuoteResponse)
  | executeBridge (resp : Except String ExecResponse) (statusResps : Nat → Except Unit String)
  | back
  | close

/-- One step of the modal: dispatch a user action to its handler, guarded
by the step in which the corresponding control is rendered. Returns the
new state and the API requests issued. -/
def stepAction (zcashAddress : String) (currentBalance : ℚ)
    (s : ModalState) : UserAction → ModalState × List ApiCall
  | .setAmount v => (if s.step = .input then { s with amount := v } else s, [])
  | .getQuote resp =>
      if s.step = .input then handleGetQuote zcashAddress currentBalance resp s else (s, [])
  | .executeBridge resp statusResps =>
      if s.step = .quote then
        let next := handleExecuteBridge zcashAddress resp statusResps s
        (next.1, callsOf next.2)
      else (s, [])
  | .back => (if s.step = .quote then { s with step := .input, error := none, quote := none } else s, [])
  | .close => (if s.step = .executing ∨ s.step = .monitoring then s else initState, [])

/-- Runs a list of user actions from a state, accumulating the trace of
API requests. -/
def runAux (zcashAddress : String) (currentBalance : ℚ) :
    ModalState → List ApiCall → List UserAction → ModalState × List ApiCall
  | s, tr, [] => (s, tr)
  | s, tr, a :: rest =>
    let next := stepAction zcashAddress currentBalance s a
    runAux zcashAddress currentBalance next.1 (tr ++ next.2) rest

/-- A full run of the open modal from its initial state. -/
def runActions (zcashAddress : String) (currentBalance : ℚ)
    (acts : List UserAction) : ModalState × List ApiCall :=
  runAux zcashAddress currentBalance initState [] acts

/-- Checks, scanning a request trace left to right while tracking the
amount_lamports of the most recent quote request, that every execute
request carries exactly the amount of the quote request most recently
issued before it. -/
def execMatchesQuote : Option (Option Int) → List ApiCall → Bool
  | _, [] => true
  | _, ApiCall.bridgeQuote amt _ :: rest => execMatchesQuote (some amt) rest
  | lastQ, ApiCall.bridgeExecute amt _ :: rest =>
      decide (lastQ = some amt) && execMatchesQuote lastQ rest
  | lastQ, ApiCall.bridgeStatus _ :: rest => execMatchesQuote lastQ rest

/-- The amount_lamports of the last quote request in a trace, else the
accumulator. -/
def lastQuoteAmt : Option (Option Int) → List ApiCall → Option (Option Int)
  | acc, [] => acc
  | _, ApiCall.bridgeQuote amt _ :: rest => lastQuoteAmt (some amt) rest
  | acc, ApiCall.bridgeExecute _ _ :: rest => lastQuoteAmt acc rest
  | acc, ApiCall.bridgeStatus _ :: rest => lastQuoteAmt acc rest

/-- Invariant of a reachable modal state together with its request trace:
in the input step no quote is held, and while a quote is held its
recorded request amount is the floor conversion of the current amount
string and agrees with the last quote request issued. -/
def modalInv (s : ModalState) (tr : List ApiCall) : Prop :=
  (s.step = .input → s.quote = none) ∧
  (s.quote.isSome = true →
    s.quoteSentLamports = lamportsOfString s.amount ∧
    lastQuoteAmt none tr = some (lamportsOfString s.amount))

/-! ## Concrete fixtures for witnesses and counterexamples -/

/-- A concrete quote response. -/
def exampleQuote : QuoteResponse where
  amount_in := "1000000000"
  amount_in_formatted := "1.0000"
  amount_out := "123456"
  amount_out_formatted := "0.0012"
  deposit_address := "D1"
  time_estimate := 10

/-- A concrete execute response. -/
def exampleExecResp : ExecResponse where
  bridge_tx_id := "tx1"
  solana_signature := "sig1"
  deposit_address := "D1"
  expected_zec := "123456"

/-- A modal state in the monitoring step, as after a successful execute. -/
def monitoringState : ModalState :=
  { initState with
      amount := "1", step := .monitoring, quote := some exampleQuote,
      quoteSentLamports := some 1000000000, bridgeResult := some exampleExecResp }

/-- A modal state holding a quote for amount "2". -/
def quotedState2 : ModalState :=
  { initState with
      amount := "2", step := .quote, quote := some exampleQuote,
      quoteSentLamports := some 2000000000 }

/-- A poll oracle whose first attempt throws and whose later attempts
report SUCCESS. -/
def failOnceResps : Nat → Except Unit String :=
  fun n => if n = 1 then Except.error () else Except.ok "SUCCESS"

/-- A poll oracle that reports PENDING twice and then SUCCESS. -/
def succeedAtThreeResps : Nat → Except Unit String :=
  fun n => if 3 ≤ n then Except.ok "SUCCESS" else Except.ok "PENDING"

/-- A poll oracle that always reports the non-terminal status PENDING. -/
def alwaysPendingResps : Nat → Except Unit String :=
  fun _ => Except.ok "PENDING"

/-! ## Helper lemmas -/

/-- Elementwise view of an UPDATE through the trigger: position i of the
updated table is the trigger image of the SET-clause image when the WHERE
clause matches, and the untouched row otherwise. -/
theorem bridgeUpdate_getD (now : Int) (w : BridgeRow → Bool) (c : BridgeRow → BridgeRow) :
    ∀ (rows : List BridgeRow) (i : Nat), i < rows.length →
      (bridgeUpdate now w c rows).getD i defaultBridgeRow
        = if w (rows.getD i defaultBridgeRow) = true
          then update_updated_at_column now (c (rows.getD i defaultBridgeRow))
          else rows.getD i defaultBridgeRow
  | [], i, hi => by simp at hi
  | r :: rs, 0, _ => by simp [bridgeUpdate]
  | r :: rs, i + 1, hi => by
      simpa [bridgeUpdate] using bridgeUpdate_getD now w c rs i (by simpa using hi)

/-- The kernel-reducible conversion lamportsQ agrees with the floor of
a * 1_000_000_000, the literal shape of the JavaScript expression. -/
theorem lamportsQ_eq_floor (a : ℚ) : lamportsQ a = ⌊a * 1000000000⌋ := by
  unfold lamportsQ
  have h1 : mkRat (a.num * 1000000000) a.den = a * 1000000000 := by
    rw [Rat.mkRat_eq_divInt, Rat.divInt_eq_div]
    push_cast
    rw [mul_comm (a.num : ℚ) 1000000000, mul_div_assoc, Rat.num_div_den]
    ring
  calc (mkRat (a.num * 1000000000) a.den).floor
      = ⌊mkRat (a.num * 1000000000) a.den⌋ := by rw [Rat.floor_def', Rat.floor_def]
    _ = ⌊a * 1000000000⌋ := by rw [h1]

/-- Every event the monitoring loop emits is either a status request for
the monitored deposit address or a 5000 ms setTimeout. -/
theorem pollLoop_events (dep : String) (resps : Nat → Except Unit String) :
    ∀ (fuel attempts : Nat) (s : ModalState),
      ∀ e ∈ (pollLoop dep resps s attempts fuel).2,
        e = PollEvent.call (ApiCall.bridgeStatus dep) ∨ e = PollEvent.schedule 5000
  | 0, attempts, s => by simp [pollLoop]
  | fuel + 1, attempts, s => by
      intro e he
      simp only [pollLoop] at he
      split_ifs at he with h1 h2
      · simp only [List.mem_cons] at he
        rcases he with rfl | rfl | he
        · exact Or.inl rfl
        · exact Or.inr rfl
        · exact pollLoop_events dep resps fuel (attempts + 1)
            (checkStatus (resps (attempts + 1)) s).1 e he
      · simp only [List.mem_singleton] at he
        exact Or.inl he
      · simp only [List.mem_singleton] at he
        exact Or.inl he

/-! ## Claim C1 -/

/-- C1: the claim fails on the schema. Migration 005 declares no
uniqueness constraint on bridge_transactions.deposit_address — the only
statement touching that column is a plain (non-unique) CREATE INDEX — and
the DDL admits a table of two distinct rows sharing deposit address D1. -/
theorem bridge_C1_depositAddress_not_unique_counterexample :
    ("bridge_transactions", "deposit_address") ∉ migration005UniqueConstraints ∧
    IndexSpec.mk "idx_bridge_transactions_deposit_address" "bridge_transactions"
        "deposit_address" false ∈ migration005Indexes ∧
    bridgeTableAdmissible [exampleRowA, exampleRowB] ∧
    exampleRowA ≠ exampleRowB ∧
    exampleRowA.deposit_address = exampleRowB.deposit_address :=
  ⟨by decide, by decide, by decide, by decide, rfl⟩

/-- C1 (amended): every index migration 005 places on
bridge_transactions.deposit_address is non-unique, the table's only
uniqueness constraint is its primary key id, and the schema admits two
distinct rows with equal deposit_address; uniqueness of depositAddress is
guaranteed only externally by the settlement network, not by the ledger
schema. -/
theorem bridge_C1_amended_nonunique_index :
    (∀ i ∈ migration005Indexes,
        i.table = "bridge_transactions" → i.column = "deposit_address" → i.isUnique = false) ∧
    (∀ tc ∈ migration005UniqueConstraints, tc.1 = "bridge_transactions" → tc.2 = "id") ∧
    ∃ rows : List BridgeRow, bridgeTableAdmissible rows ∧
      ∃ r1 ∈ rows, ∃ r2 ∈ rows, r1 ≠ r2 ∧ r1.deposit_address = r2.deposit_address :=
  ⟨by decide, by decide, [exampleRowA, exampleRowB], by decide,
    exampleRowA, by simp, exampleRowB, by simp, by decide, rfl⟩

/-- Witness for C1 (amended) at the deposit-address index of migration
005. -/
theorem bridge_C1_amended_witness :
    (IndexSpec.mk "idx_bridge_transactions_deposit_address" "bridge_transactions"
        "deposit_address" false).isUnique = false :=
  bridge_C1_amended_nonunique_index.1 _ (by decide) rfl rfl

/-! ## Claim C8 -/

/-- C8: every UPDATE on bridge_transactions goes through the row-level
BEFORE UPDATE trigger, which overwrites the stored updated_at of each
matched row with the time of the update; hence a state change applied at a
time later than the row's updated_at strictly advances updated_at. -/
theorem bridge_C8_update_advances_updated_at (now : Int) (whereClause : BridgeRow → Bool)
    (setClause : BridgeRow → BridgeRow) (rows : List BridgeRow) (i : Nat)
    (hi : i < rows.length) (hm : whereClause (rows.getD i defaultBridgeRow) = true) :
    (bridgeUpdate now whereClause setClause rows).getD i defaultBridgeRow
        = update_updated_at_column now (setClause (rows.getD i defaultBridgeRow)) ∧
    ((bridgeUpdate now whereClause setClause rows).getD i defaultBridgeRow).updated_at = now ∧
    ((rows.getD i defaultBridgeRow).updated_at < now →
      (rows.getD i defaultBridgeRow).updated_at
        < ((bridgeUpdate now whereClause setClause rows).getD i defaultBridgeRow).updated_at) := by
  have h := bridgeUpdate_getD now whereClause setClause rows i hi
  rw [hm] at h
  simp only [if_true] at h
  refine ⟨h, ?_, ?_⟩
  · rw [h]; rfl
  · intro hlt; rw [h]; exact hlt

/-- Witness for C8: updating row a of a concrete two-row table at time 7
stores updated_at = 7 for the matched row. -/
theorem bridge_C8_witness :
    ((bridgeUpdate 7 (fun r => r.id == "a") (fun r => { r with status := "PROCESSING" })
        [exampleRowA, exampleRowB]).getD 0 defaultBridgeRow).updated_at = 7 :=
  (bridge_C8_update_advances_updated_at 7 (fun r => r.id == "a")
    (fun r => { r with status := "PROCESSING" }) [exampleRowA, exampleRowB] 0
    (by decide) (by decide)).2.1

/-- The done flag checkStatus returns depends only on the poll outcome,
not on the current modal state. -/
theorem checkStatus_done (resp : Except Unit String) (s : ModalState) :
    (checkStatus resp s).2 = doneAtResp resp := by
  cases resp with
  | error e => rfl
  | ok st =>
    simp only [checkStatus, doneAtResp]
    split_ifs <;> rfl

/-- Counting requests: a request event adds one. -/
theorem callCount_cons_call (c : ApiCall) (l : List PollEvent) :
    callCount (PollEvent.call c :: l) = callCount l + 1 := by
  simp [callCount]

/-- Counting requests: a schedule event adds none. -/
theorem callCount_cons_schedule (d : Nat) (l : List PollEvent) :
    callCount (PollEvent.schedule d :: l) = callCount l := by
  simp [callCount]

/-- Membership transfer from the projected request list to the event
list. -/
theorem callsOf_mem : ∀ (l : List PollEvent) (c : ApiCall),
    c ∈ callsOf l → PollEvent.call c ∈ l
  | [], c, h => by simp [callsOf] at h
  | PollEvent.call c' :: rest, c, h => by
      simp only [callsOf, List.mem_cons] at h ⊢
      rcases h with rfl | h
      · exact Or.inl rfl
      · exact Or.inr (callsOf_mem rest c h)
  | PollEvent.schedule d :: rest, c, h => by
      simp only [callsOf] at h
      exact List.mem_cons_of_mem _ (callsOf_mem rest c h)

/-- The monitoring loop never issues more requests than it has fuel. -/
theorem pollLoop_count_le (dep : String) (resps : Nat → Except Unit String) :
    ∀ (fuel attempts : Nat) (s : ModalState),
      callCount (pollLoop dep resps s attempts fuel).2 ≤ fuel
  | 0, attempts, s => by simp [pollLoop, callCount]
  | fuel + 1, attempts, s => by
      simp only [pollLoop]
      split_ifs with h1 h2
      · rw [callCount_cons_call, callCount_cons_schedule]
        exact Nat.succ_le_succ (pollLoop_count_le dep resps fuel (attempts + 1) _)
      · rw [callCount_cons_call]
        simp [callCount]
      · rw [callCount_cons_call]
        simp [callCount]

/-- A monitoring run with fuel left always begins with the status
request. -/
theorem pollLoop_head (dep : String) (resps : Nat → Except Unit String)
    (fuel attempts : Nat) (s : ModalState) :
    ((pollLoop dep resps s attempts (fuel + 1)).2).head?
      = some (PollEvent.call (ApiCall.bridgeStatus dep)) := by
  simp only [pollLoop]
  split_ifs <;> rfl

/-- The monitoring trace alternates requests and 5000 ms schedules with no
trailing schedule. -/
theorem pollLoop_shape (dep : String) (resps : Nat → Except Unit String) :
    ∀ (fuel attempts : Nat) (s : ModalState), attempts + fuel = maxAttempts →
      pollTraceShape (pollLoop dep resps s attempts fuel).2 = true
  | 0, attempts, s, _ => by simp [pollLoop, pollTraceShape]
  | fuel + 1, attempts, s, hinv => by
      simp only [pollLoop]
      split_ifs with h1 h2
      · have hfuel : fuel ≠ 0 := by omega
        obtain ⟨f', rfl⟩ : ∃ f', fuel = f' + 1 := ⟨fuel - 1, by omega⟩
        have hh := pollLoop_head dep resps f' (attempts + 1)
          (checkStatus (resps (attempts + 1)) s).1
        have hsh := pollLoop_shape dep resps (f' + 1) (attempts + 1)
          (checkStatus (resps (attempts + 1)) s).1 (by omega)
        rcases hl : (pollLoop dep resps (checkStatus (resps (attempts + 1)) s).1
            (attempts + 1) (f' + 1)).2 with _ | ⟨e, l⟩
        · rw [hl] at hh; simp at hh
        · rw [hl] at hsh
          simp [pollTraceShape, hl, hsh]
      · rfl
      · rfl

/-- Polls before the one on which the loop stops all observed a
non-terminal (not-done) outcome. -/
theorem pollLoop_prefix_not_done (dep : String) (resps : Nat → Except Unit String) :
    ∀ (fuel attempts : Nat) (s : ModalState) (k : Nat),
      k + 1 < callCount (pollLoop dep resps s attempts fuel).2 →
      doneAtB resps (attempts + k + 1) = false
  | 0, attempts, s, k => by
      intro h
      simp [pollLoop, callCount] at h
  | fuel + 1, attempts, s, k => by
      intro h
      simp only [pollLoop] at h
      split_ifs at h with h1 h2
      · rw [callCount_cons_call, callCount_cons_schedule] at h
        cases k with
        | zero =>
          have hd := checkStatus_done (resps (attempts + 1)) s
          rw [h1.1] at hd
          simpa [doneAtB] using hd.symm
        | succ k' =>
          have hrec := pollLoop_prefix_not_done dep resps fuel (attempts + 1)
            (checkStatus (resps (attempts + 1)) s).1 k' (by omega)
          rw [show attempts + (k' + 1) + 1 = attempts + 1 + k' + 1 by omega]
          exact hrec
      · rw [callCount_cons_call] at h
        simp [callCount] at h
      · rw [callCount_cons_call] at h
        simp [callCount] at h

/-- When no poll in the whole budget reports done, the loop runs its full
budget and ends by overwriting the state with the monitoring-timeout
error. -/
theorem pollLoop_timeout (dep : String) (resps : Nat → Except Unit String) :
    ∀ (fuel attempts : Nat) (s : ModalState), attempts + fuel = maxAttempts → fuel ≠ 0 →
      (∀ n, n ≤ maxAttempts → 1 ≤ n → doneAtB resps n = false) →
      (pollLoop dep resps s attempts fuel).1.step = BridgeStep.error ∧
      (pollLoop dep resps s attempts fuel).1.error
        = some "Bridge monitoring timeout. Please check status manually." ∧
      callCount (pollLoop dep resps s attempts fuel).2 = fuel
  | 0, attempts, s, _, hf, _ => absurd rfl hf
  | fuel + 1, attempts, s, hinv, _, hnone => by
      have hd : (checkStatus (resps (attempts + 1)) s).2 = false := by
        rw [checkStatus_done]
        exact hnone (attempts + 1) (by omega) (by omega)
      simp only [pollLoop]
      split_ifs with h1 h2
      · have hrec := pollLoop_timeout dep resps fuel (attempts + 1)
          (checkStatus (resps (attempts + 1)) s).1 (by omega) (by omega) hnone
        refine ⟨hrec.1, hrec.2.1, ?_⟩
        rw [callCount_cons_call, callCount_cons_schedule, hrec.2.2]
      · refine ⟨rfl, rfl, ?_⟩
        simp [callCount]
        omega
      · exfalso
        rw [not_and_or] at h1
        rcases h1 with h1 | h1
        · exact h1 hd
        · omega

/-! ## Claim C2 -/

/-- C2: the claim fails on the code. REFUNDED is a terminal settlement
outcome (spec glossary; also listed in the schema's status comment), yet
checkStatus does not stop on it: the poll reports not-done and leaves the
step unchanged, and against an oracle that always reports REFUNDED the
monitoring loop keeps polling through its entire 60-attempt budget. -/
theorem bridge_C2_refunded_counterexample :
    specTerminalStatus "REFUNDED" = true ∧
    (checkStatus (Except.ok "REFUNDED") monitoringState).2 = false ∧
    (checkStatus (Except.ok "REFUNDED") monitoringState).1.step = monitoringState.step ∧
    callCount (startMonitoring "D1" (fun _ => Except.ok "REFUNDED") monitoringState).2 = 60 :=
  ⟨rfl, by decide, by decide, by decide⟩

/-- C2 (amended): the monitoring loop stops on a poll exactly when the
returned status is COMPLETED, SUCCESS, FAILED or ERROR: COMPLETED and
SUCCESS end monitoring in the success step, FAILED and ERROR end it in the
error step with the failure message, and every other value — including the
terminal refund outcome REFUNDED — causes no step or error transition and
another poll. -/
theorem bridge_C2_amended_stop_condition (st : String) (s : ModalState) :
    ((checkStatus (Except.ok st) s).2 = true ↔ st ∈ clientStopStatuses) ∧
    (st = "COMPLETED" ∨ st = "SUCCESS" →
      (checkStatus (Except.ok st) s).1.step = BridgeStep.success) ∧
    (st = "FAILED" ∨ st = "ERROR" →
      (checkStatus (Except.ok st) s).1.step = BridgeStep.error ∧
      (checkStatus (Except.ok st) s).1.error = some "Bridge transaction failed") ∧
    (st ∉ clientStopStatuses →
      (checkStatus (Except.ok st) s).2 = false ∧
      (checkStatus (Except.ok st) s).1.step = s.step ∧
      (checkStatus (Except.ok st) s).1.error = s.error) := by
  by_cases h1 : st = "COMPLETED" ∨ st = "SUCCESS"
  · constructor
    · rcases h1 with rfl | rfl <;> simp [checkStatus, clientStopStatuses]
    · refine ⟨fun _ => by simp [checkStatus, h1], ?_, ?_⟩
      · rintro (rfl | rfl) <;> rcases h1 with h1 | h1 <;> simp_all
      · intro hmem
        exact absurd (by rcases h1 with rfl | rfl <;> simp [clientStopStatuses]) hmem
  · by_cases h2 : st = "FAILED" ∨ st = "ERROR"
    · constructor
      · rcases h2 with rfl | rfl <;> simp [checkStatus, clientStopStatuses]
      · refine ⟨?_, fun _ => by simp [checkStatus, h1, h2], ?_⟩
        · rintro (rfl | rfl) <;> exact absurd h2 (by simp_all)
        · intro hmem
          exact absurd (by rcases h2 with rfl | rfl <;> simp [clientStopStatuses]) hmem
    · have hmem : st ∉ clientStopStatuses := by
        simp only [clientStopStatuses, List.mem_cons, List.not_mem_nil, or_false]
        push_neg at h1 h2 ⊢
        exact ⟨h1.1, h1.2, h2.1, h2.2⟩
      refine ⟨by simp [checkStatus, h1, h2, hmem], ?_, ?_, ?_⟩
      · rintro (rfl | rfl) <;> simp_all
      · rintro (rfl | rfl) <;> simp_all
      · intro _
        simp [checkStatus, h1, h2]

/-- Witness for C2 (amended): a COMPLETED poll ends monitoring in the
success step. -/
theorem bridge_C2_amended_stop_condition_witness :
    (checkStatus (Except.ok "COMPLETED") monitoringState).1.step = BridgeStep.success :=
  (bridge_C2_amended_stop_condition "COMPLETED" monitoringState).2.1 (Or.inl rfl)

/-! ## Claim C5 -/

/-- C5: the claim fails on the code. From a state holding a quote for
amount "2" while the available balance is 1, handleExecuteBridge sends the
execute request, although the very checks handleGetQuote applies (and
would re-apply) reject the same amount against the same balance with the
insufficient-balance error. Execute re-validates nothing beyond the
presence of a quote and a non-empty amount string. -/
theorem bridge_C5_no_revalidation_counterexample :
    (handleExecuteBridge "z" (Except.ok exampleExecResp) (fun _ => Except.ok "SUCCESS")
        quotedState2).2 ≠ [] ∧
    quoteChecksPass quotedState2.amount 1 = false ∧
    (handleGetQuote "z" 1 (Except.ok exampleQuote) quotedState2).2 = [] ∧
    (handleGetQuote "z" 1 (Except.ok exampleQuote) quotedState2).1.error
      = some "Insufficient balance" :=
  ⟨by decide, by decide, by decide, by decide⟩

/-- C5 (amended): handleExecuteBridge sends the execute request exactly
when a quote is held and the amount string is non-empty; it re-applies
none of the numeric, positivity or balance checks, and the amount it sends
is recomputed from the amount string by the same floor conversion the
quote request uses. -/
theorem bridge_C5_amended_execute_guard (z : String) (er : Except String ExecResponse)
    (sr : Nat → Except Unit String) (s : ModalState) :
    ((handleExecuteBridge z er sr s).2 ≠ [] ↔ (s.quote.isSome = true ∧ s.amount ≠ "")) ∧
    (∀ amt r, PollEvent.call (ApiCall.bridgeExecute amt r) ∈ (handleExecuteBridge z er sr s).2 →
      amt = lamportsOfString s.amount ∧ r = z) := by
  constructor
  · unfold handleExecuteBridge
    split_ifs with h
    · simp only [ne_eq, not_true_eq_false, false_iff, not_and]
      rcases h with h | h
      · intro hs; exact absurd (Option.isNone_iff_eq_none.mp h) (by simp_all)
      · intro _; simp [h]
    · push_neg at h
      cases er <;>
        simp [Option.isSome_iff_ne_none, Option.isNone_iff_eq_none, h.1, h.2] <;>
        simp_all [Option.isNone_iff_eq_none]
  · intro amt r hm
    unfold handleExecuteBridge at hm
    split_ifs at hm with h
    · simp at hm
    · cases er with
      | error e => simp at hm; exact ⟨hm.1, hm.2⟩
      | ok rr =>
        simp only [List.mem_cons] at hm
        rcases hm with heq | hm
        · simp only [PollEvent.call.injEq, ApiCall.bridgeExecute.injEq] at heq
          exact ⟨heq.1, heq.2⟩
        · rcases pollLoop_events rr.deposit_address sr maxAttempts 0 _ _ hm with hc | hc <;>
            simp at hc

/-- Witness for C5 (amended): from the concrete quoted state the execute
request is sent. -/
theorem bridge_C5_amended_witness :
    (handleExecuteBridge "z" (Except.ok exampleExecResp) (fun _ => Except.ok "SUCCESS")
        quotedState2).2 ≠ [] :=
  (bridge_C5_amended_execute_guard "z" (Except.ok exampleExecResp)
    (fun _ => Except.ok "SUCCESS") quotedState2).1.mpr ⟨by decide, by decide⟩

/-! ## Claim C6 -/

/-- C6: the claim fails on the code. The amount string "0.0000000001"
passes every check handleGetQuote applies (it is numeric, positive, and
within a balance of 1 SOL), yet the computed amount_lamports is 0, not a
strictly positive integer, and the quote request is issued carrying 0. -/
theorem bridge_C6_zero_lamports_counterexample :
    quoteChecksPass "0.0000000001" 1 = true ∧
    lamportsOfString "0.0000000001" = some 0 ∧
    (handleGetQuote "z" 1 (Except.ok exampleQuote)
        { initState with amount := "0.0000000001" }).2
      = [ApiCall.bridgeQuote (some 0) "z"] :=
  ⟨by decide, by decide, by decide⟩

/-- C6 (amended): for every amount string that passes validation the
computed amount_lamports is a non-negative integer, and it is strictly
positive exactly when the parsed amount is at least one lamport
(10 ^ -9 SOL); validation admits positive sub-lamport amounts whose
floor conversion is 0. -/
theorem bridge_C6_amended_nonneg (amount : String) (bal : ℚ)
    (h : quoteChecksPass amount bal = true) :
    ∃ L : Int, lamportsOfString amount = some L ∧ 0 ≤ L ∧
      ∀ a : ℚ, parseFloatQ amount = some a → (1 ≤ L ↔ 1 / 1000000000 ≤ a) := by
  by_cases hA : amount = ""
  · simp [quoteChecksPass, hA] at h
  · rcases hp : parseFloatQ amount with _ | a
    · simp [quoteChecksPass, hA, hp] at h
    · simp only [quoteChecksPass, hA, hp, if_false] at h
      split_ifs at h with h1 h2
      push_neg at h1
      refine ⟨lamportsQ a, by simp [lamportsOfString, hp], ?_, ?_⟩
      · rw [lamportsQ_eq_floor]
        exact Int.floor_nonneg.mpr (by positivity)
      · intro b hb
        rw [Option.some_inj] at hb
        subst hb
        rw [lamportsQ_eq_floor]
        constructor
        · intro hL
          have h9 : (1 : ℚ) ≤ a * 1000000000 := by exact_mod_cast Int.le_floor.mp hL
          rw [div_le_iff₀ (by norm_num : (0 : ℚ) < 1000000000)]
          linarith
        · intro hge
          apply Int.le_floor.mpr
          push_cast
          rw [div_le_iff₀ (by norm_num : (0 : ℚ) < 1000000000)] at hge
          linarith

/-- Witness for C6 (amended) at the amount string "1" and balance 1. -/
theorem bridge_C6_amended_witness :
    quoteChecksPass "1" 1 = true ∧
    ∃ L : Int, lamportsOfString "1" = some L ∧ 0 ≤ L ∧
      ∀ a : ℚ, parseFloatQ "1" = some a → (1 ≤ L ↔ 1 / 1000000000 ≤ a) :=
  ⟨by decide, bridge_C6_amended_nonneg "1" 1 (by decide)⟩

/-! ## Claim C7 -/

/-- C7: a quote-flow invocation issues at most the single quote request
(none when validation fails or before the call throws nothing else), every
request it issues targets the quote endpoint and does not write to the
ledger, and — per the spec's contract for the quote endpoint — serving a
quote leaves the ledger unchanged: no BridgeTransaction row is created. -/
theorem bridge_C7_quote_no_ledger_effect (z : String) (bal : ℚ)
    (resp : Except String QuoteResponse) (s : ModalState) :
    ((handleGetQuote z bal resp s).2 = [] ∨
      (handleGetQuote z bal resp s).2 = [ApiCall.bridgeQuote (lamportsOfString s.amount) z]) ∧
    (∀ c ∈ (handleGetQuote z bal resp s).2,
      ApiCall.endpoint c = "/solana/bridge/quote" ∧ mutatesLedger c = false) ∧
    (∀ rows : List BridgeRow, quoteLedgerEffect rows = rows) := by
  have hcalls : (handleGetQuote z bal resp s).2 = [] ∨
      (handleGetQuote z bal resp s).2 = [ApiCall.bridgeQuote (lamportsOfString s.amount) z] := by
    unfold handleGetQuote
    by_cases hA : s.amount = ""
    · simp [hA]
    · rcases hp : parseFloatQ s.amount with _ | a
      · simp [hA, hp]
      · simp only [hA, hp, if_false]
        split_ifs with h1 h2
        · simp
        · simp
        · cases resp <;> simp [lamportsOfString, hp]
  refine ⟨hcalls, ?_, fun rows => rfl⟩
  intro c hc
  rcases hcalls with h | h
  · rw [h] at hc; simp at hc
  · rw [h] at hc
    simp only [List.mem_singleton] at hc
    subst hc
    exact ⟨rfl, rfl⟩

/-- Witness for C7: the request the quote flow issues for amount "2"
targets the quote endpoint and is a ledger read. -/
theorem bridge_C7_witness :
    ApiCall.endpoint (ApiCall.bridgeQuote (some 2000000000) "z") = "/solana/bridge/quote" ∧
    mutatesLedger (ApiCall.bridgeQuote (some 2000000000) "z") = false :=
  (bridge_C7_quote_no_ledger_effect "z" 5 (Except.ok exampleQuote)
    { initState with amount := "2" }).2.1 _ (by decide)

/-! ## Claim C3 -/

/-- C3: every run of the monitoring loop issues at most 60 status
requests (the 5-second interval over a 5-minute ceiling); the trace
alternates one request with one 5000 ms setTimeout and never schedules a
poll after the loop stops; every request targets the bridge-status
endpoint for the monitored deposit address; and every poll before the last
one observed a not-done outcome, so no poll follows an outcome the loop
treats as terminal. -/
theorem bridge_C3_poll_budget_and_interval (dep : String)
    (resps : Nat → Except Unit String) (s : ModalState) :
    callCount (startMonitoring dep resps s).2 ≤ maxAttempts ∧
    pollTraceShape (startMonitoring dep resps s).2 = true ∧
    (∀ c ∈ callsOf (startMonitoring dep resps s).2, c = ApiCall.bridgeStatus dep) ∧
    (∀ k, k + 1 < callCount (startMonitoring dep resps s).2 →
      doneAtB resps (k + 1) = false) := by
  refine ⟨pollLoop_count_le dep resps maxAttempts 0 s,
    pollLoop_shape dep resps maxAttempts 0 s rfl, ?_, ?_⟩
  · intro c hc
    rcases pollLoop_events dep resps maxAttempts 0 s _ (callsOf_mem _ c hc) with h | h
    · exact (PollEvent.call.injEq _ _).mp h
    · simp at h
  · intro k hk
    simpa using pollLoop_prefix_not_done dep resps maxAttempts 0 s k hk

/-- Witness for C3 with the oracle that succeeds on the third poll: three
requests are issued and the first poll observed a not-done outcome. -/
theorem bridge_C3_witness :
    doneAtB succeedAtThreeResps 1 = false :=
  (bridge_C3_poll_budget_and_interval "D1" succeedAtThreeResps monitoringState).2.2.2 0
    (by decide)

/-! ## Claim C4 -/

/-- C4: when all 60 polls complete without an outcome the loop treats as
terminal, the loop ends with the monitoring-timeout message in the error
step of the local UI state; exactly 60 requests were issued, all of them
bridge-status reads for the monitored deposit address, and none of the
operations the loop performs mutates the ledger — in particular nothing
marks the row FAILED. -/
theorem bridge_C4_timeout_no_ledger_mutation (dep : String)
    (resps : Nat → Except Unit String) (s : ModalState)
    (hnone : ∀ n, n ≤ maxAttempts → 1 ≤ n → doneAtB resps n = false) :
    (startMonitoring dep resps s).1.step = BridgeStep.error ∧
    (startMonitoring dep resps s).1.error
      = some "Bridge monitoring timeout. Please check status manually." ∧
    callCount (startMonitoring dep resps s).2 = maxAttempts ∧
    (∀ c ∈ callsOf (startMonitoring dep resps s).2,
      c = ApiCall.bridgeStatus dep ∧ mutatesLedger c = false) := by
  have ht := pollLoop_timeout dep resps maxAttempts 0 s rfl (by decide) hnone
  refine ⟨ht.1, ht.2.1, ht.2.2, ?_⟩
  intro c hc
  rcases pollLoop_events dep resps maxAttempts 0 s _ (callsOf_mem _ c hc) with h | h
  · obtain rfl := (PollEvent.call.injEq _ _).mp h
    exact ⟨rfl, rfl⟩
  · simp at h

/-- Witness for C4 with the always-PENDING oracle: the loop ends with the
timeout message, without any ledger mutation. -/
theorem bridge_C4_witness :
    (startMonitoring "D1" alwaysPendingResps monitoringState).1.error
      = some "Bridge monitoring timeout. Please check status manually." :=
  (bridge_C4_timeout_no_ledger_mutation "D1" alwaysPendingResps monitoringState
    (by decide)).2.1

/-! ## Claim C9 -/

/-- C9: a poll whose status request throws leaves the modal state — step,
error message and last displayed status — completely unchanged and reports
not-done (never the error step); the failed attempt still consumed one
unit of the budget, and with budget remaining the next poll is scheduled
after the 5000 ms delay and issued. -/
theorem bridge_C9_failed_poll (dep : String) (resps : Nat → Except Unit String)
    (s : ModalState) (attempts f : Nat)
    (hfail : resps (attempts + 1) = Except.error ())
    (hlt : attempts + 1 < maxAttempts) :
    checkStatus (resps (attempts + 1)) s = (s, false) ∧
    (pollLoop dep resps s attempts (f + 2)).1
      = (pollLoop dep resps s (attempts + 1) (f + 1)).1 ∧
    (pollLoop dep resps s attempts (f + 2)).2
      = PollEvent.call (ApiCall.bridgeStatus dep) :: PollEvent.schedule 5000
          :: (pollLoop dep resps s (attempts + 1) (f + 1)).2 ∧
    ((pollLoop dep resps s (attempts + 1) (f + 1)).2).head?
      = some (PollEvent.call (ApiCall.bridgeStatus dep)) := by
  have hcs : checkStatus (resps (attempts + 1)) s = (s, false) := by rw [hfail]; rfl
  refine ⟨hcs, ?_, ?_, pollLoop_head dep resps f (attempts + 1) s⟩
  · conv_lhs => rw [pollLoop]
    rw [hcs]
    rw [if_pos ⟨rfl, hlt⟩]
  · conv_lhs => rw [pollLoop]
    rw [hcs]
    rw [if_pos ⟨rfl, hlt⟩]

/-- Witness for C9: with the oracle whose first poll throws, checkStatus
leaves the concrete monitoring state untouched and reports not-done. -/
theorem bridge_C9_witness :
    checkStatus (failOnceResps 1) monitoringState = (monitoringState, false) :=
  (bridge_C9_failed_poll "D1" failOnceResps monitoringState 0 58 rfl (by decide)).1

/-! ## Claim C10: trace lemmas and the state-machine invariant -/

/-- lastQuoteAmt distributes over concatenation. -/
theorem lastQuoteAmt_append : ∀ (acc : Option (Option Int)) (l1 l2 : List ApiCall),
    lastQuoteAmt acc (l1 ++ l2) = lastQuoteAmt (lastQuoteAmt acc l1) l2
  | _, [], _ => rfl
  | acc, ApiCall.bridgeQuote amt r :: rest, l2 => by
      simp only [List.cons_append, lastQuoteAmt]
      exact lastQuoteAmt_append (some amt) rest l2
  | acc, ApiCall.bridgeExecute amt r :: rest, l2 => by
      simp only [List.cons_append, lastQuoteAmt]
      exact lastQuoteAmt_append acc rest l2
  | acc, ApiCall.bridgeStatus d :: rest, l2 => by
      simp only [List.cons_append, lastQuoteAmt]
      exact lastQuoteAmt_append acc rest l2

/-- execMatchesQuote distributes over concatenation, threading the
last-quote accumulator. -/
theorem execMatchesQuote_append : ∀ (acc : Option (Option Int)) (l1 l2 : List ApiCall),
    execMatchesQuote acc (l1 ++ l2)
      = (execMatchesQuote acc l1 && execMatchesQuote (lastQuoteAmt acc l1) l2)
  | acc, [], l2 => by simp [execMatchesQuote, lastQuoteAmt]
  | acc, ApiCall.bridgeQuote amt r :: rest, l2 => by
      simp only [List.cons_append, execMatchesQuote, lastQuoteAmt]
      exact execMatchesQuote_append (some amt) rest l2
  | acc, ApiCall.bridgeExecute amt r :: rest, l2 => by
      simp only [List.cons_append, execMatchesQuote, lastQuoteAmt, List.append_eq]
      rw [execMatchesQuote_append acc rest l2, Bool.and_assoc]
  | acc, ApiCall.bridgeStatus d :: rest, l2 => by
      simp only [List.cons_append, execMatchesQuote, lastQuoteAmt]
      exact execMatchesQuote_append acc rest l2

/-- A list of status requests leaves the last-quote accumulator
unchanged. -/
theorem lastQuoteAmt_status (dep : String) : ∀ (acc : Option (Option Int)) (l : List ApiCall),
    (∀ c ∈ l, c = ApiCall.bridgeStatus dep) → lastQuoteAmt acc l = acc
  | _, [], _ => rfl
  | acc, c :: rest, h => by
      obtain rfl := h c (List.mem_cons_self c rest)
      simp only [lastQuoteAmt]
      exact lastQuoteAmt_status dep acc rest fun c hc => h c (List.mem_cons_of_mem _ hc)

/-- A list of status requests satisfies the execute-matches-quote check
under any accumulator. -/
theorem execMatchesQuote_status (dep : String) : ∀ (acc : Option (Option Int)) (l : List ApiCall),
    (∀ c ∈ l, c = ApiCall.bridgeStatus dep) → execMatchesQuote acc l = true
  | _, [], _ => rfl
  | acc, c :: rest, h => by
      obtain rfl := h c (List.mem_cons_self c rest)
      simp only [execMatchesQuote]
      exact execMatchesQuote_status dep acc rest fun c hc => h c (List.mem_cons_of_mem _ hc)

/-- checkStatus never touches the amount, the held quote, or the recorded
quote amount, and only ever moves the step to success or error. -/
theorem checkStatus_state (resp : Except Unit String) (s : ModalState) :
    (checkStatus resp s).1.amount = s.amount ∧
    (checkStatus resp s).1.quote = s.quote ∧
    (checkStatus resp s).1.quoteSentLamports = s.quoteSentLamports ∧
    ((checkStatus resp s).1.step = s.step ∨ (checkStatus resp s).1.step = BridgeStep.success ∨
      (checkStatus resp s).1.step = BridgeStep.error) := by
  cases resp with
  | error e => exact ⟨rfl, rfl, rfl, Or.inl rfl⟩
  | ok st =>
    simp only [checkStatus]
    split_ifs <;> simp

/-- The monitoring loop never touches the amount, the held quote, or the
recorded quote amount, and only ever moves the step to success or error. -/
theorem pollLoop_state (dep : String) (resps : Nat → Except Unit String) :
    ∀ (fuel attempts : Nat) (s : ModalState),
      (pollLoop dep resps s attempts fuel).1.amount = s.amount ∧
      (pollLoop dep resps s attempts fuel).1.quote = s.quote ∧
      (pollLoop dep resps s attempts fuel).1.quoteSentLamports = s.quoteSentLamports ∧
      ((pollLoop dep resps s attempts fuel).1.step = s.step ∨
        (pollLoop dep resps s attempts fuel).1.step = BridgeStep.success ∨
        (pollLoop dep resps s attempts fuel).1.step = BridgeStep.error)
  | 0, attempts, s => ⟨rfl, rfl, rfl, Or.inl rfl⟩
  | fuel + 1, attempts, s => by
      have hcs := checkStatus_state (resps (attempts + 1)) s
      simp only [pollLoop]
      split_ifs with h1 h2
      · have hrec := pollLoop_state dep resps fuel (attempts + 1)
          (checkStatus (resps (attempts + 1)) s).1
        refine ⟨hrec.1.trans hcs.1, hrec.2.1.trans hcs.2.1,
          hrec.2.2.1.trans hcs.2.2.1, ?_⟩
        rcases hrec.2.2.2 with h | h | h
        · rw [h]; exact hcs.2.2.2
        · exact Or.inr (Or.inl h)
        · exact Or.inr (Or.inr h)
      · exact ⟨hcs.1, hcs.2.1, hcs.2.2.1, Or.inr (Or.inr rfl)⟩
      · exact ⟨hcs.1, hcs.2.1, hcs.2.2.1, hcs.2.2.2⟩

/-- One modal transition preserves the reachability invariant and the
execute-matches-quote property of the request trace. -/
theorem stepAction_preserves (z : String) (bal : ℚ) (s : ModalState) (tr : List ApiCall)
    (a : UserAction) (hinv : modalInv s tr) (hm : execMatchesQuote none tr = true) :
    modalInv (stepAction z bal s a).1 (tr ++ (stepAction z bal s a).2) ∧
    execMatchesQuote none (tr ++ (stepAction z bal s a).2) = true := by
  cases a with
  | setAmount v =>
    simp only [stepAction, List.append_nil]
    split_ifs with hstep
    · have hq := hinv.1 hstep
      exact ⟨⟨fun _ => hq, fun hqs => by rw [hq] at hqs; simp at hqs⟩, hm⟩
    · exact ⟨hinv, hm⟩
  | getQuote resp =>
    simp only [stepAction]
    split_ifs with hstep
    · have hq := hinv.1 hstep
      unfold handleGetQuote
      by_cases hA : s.amount = ""
      · simp only [hA, if_true, List.append_nil]
        exact ⟨⟨fun _ => hq, fun hqs => by rw [hq] at hqs; simp at hqs⟩, hm⟩
      · rcases hp : parseFloatQ s.amount with _ | a
        · simp only [hA, hp, if_false, List.append_nil]
          exact ⟨⟨fun _ => hq, fun hqs => by rw [hq] at hqs; simp at hqs⟩, hm⟩
        · simp only [hA, hp, if_false]
          split_ifs with hle hbal
          · simp only [List.append_nil]
            exact ⟨⟨fun _ => hq, fun hqs => by rw [hq] at hqs; simp at hqs⟩, hm⟩
          · simp only [List.append_nil]
            exact ⟨⟨fun _ => hq, fun hqs => by rw [hq] at hqs; simp at hqs⟩, hm⟩
          · have hmq : execMatchesQuote none
                (tr ++ [ApiCall.bridgeQuote (some (lamportsQ a)) z]) = true := by
              rw [execMatchesQuote_append, hm, Bool.true_and]
              rfl
            cases resp with
            | ok q =>
              refine ⟨⟨fun hst => by simp at hst, fun _ => ⟨?_, ?_⟩⟩, hmq⟩
              · simp [lamportsOfString, hp]
              · rw [lastQuoteAmt_append]
                simp [lastQuoteAmt, lamportsOfString, hp]
            | error e =>
              refine ⟨⟨fun _ => hq, fun hqs => by rw [hq] at hqs; simp at hqs⟩, hmq⟩
    · simpa using ⟨hinv, hm⟩
  | back =>
    simp only [stepAction, List.append_nil]
    split_ifs with hstep
    · exact ⟨⟨fun _ => rfl, fun hqs => by simp at hqs⟩, hm⟩
    · exact ⟨hinv, hm⟩
  | close =>
    simp only [stepAction, List.append_nil]
    split_ifs with hstep
    · exact ⟨hinv, hm⟩
    · exact ⟨⟨fun _ => rfl, fun hqs => by simp [initState] at hqs⟩, hm⟩
  | executeBridge resp statusResps =>
    simp only [stepAction]
    split_ifs with hstep
    · rcases hq : s.quote with _ | q
      · simp only [handleExecuteBridge, hq, Option.isNone_none, true_or, if_true,
          callsOf, List.append_nil]
        exact ⟨⟨hinv.1, fun hqs => by rw [hq] at hqs; simp at hqs⟩, hm⟩
      · have hQL := hinv.2 (by rw [hq]; rfl)
        by_cases hA : s.amount = ""
        · simp only [handleExecuteBridge, hq, hA, Option.isNone_some, or_true, if_true,
            callsOf, List.append_nil]
          exact ⟨⟨hinv.1, fun hqs => hQL⟩, hm⟩
        · have hguard : ¬(s.quote.isNone = true ∨ s.amount = "") := by simp [hq, hA]
          cases resp with
          | error e =>
            simp only [handleExecuteBridge, if_neg hguard, callsOf]
            have hmq : execMatchesQuote none
                (tr ++ [ApiCall.bridgeExecute (lamportsOfString s.amount) z]) = true := by
              rw [execMatchesQuote_append, hm, Bool.true_and]
              simp only [execMatchesQuote, hQL.2, decide_eq_true_eq]
              simp
            refine ⟨⟨fun hst => by simp at hst, fun _ => ⟨hQL.1, ?_⟩⟩, hmq⟩
            rw [lastQuoteAmt_append]
            rw [hQL.2]
            rfl
          | ok r =>
            simp only [handleExecuteBridge, if_neg hguard, callsOf]
            set s1 : ModalState :=
              { s with error := none, step := BridgeStep.monitoring, bridgeResult := some r }
              with hs1
            have hps := pollLoop_state r.deposit_address statusResps maxAttempts 0 s1
            have hcallsStatus : ∀ c ∈ callsOf (startMonitoring r.deposit_address
                statusResps s1).2, c = ApiCall.bridgeStatus r.deposit_address := by
              intro c hc
              rcases pollLoop_events r.deposit_address statusResps maxAttempts 0 s1 _
                  (callsOf_mem _ c hc) with h | h
              · exact (PollEvent.call.injEq _ _).mp h
              · simp at h
            have htr : tr ++ ApiCall.bridgeExecute (lamportsOfString s.amount) z
                :: callsOf (startMonitoring r.deposit_address statusResps s1).2
                = tr ++ [ApiCall.bridgeExecute (lamportsOfString s.amount) z]
                  ++ callsOf (startMonitoring r.deposit_address statusResps s1).2 := by
              simp
            have hmq : execMatchesQuote none
                (tr ++ ApiCall.bridgeExecute (lamportsOfString s.amount) z
                  :: callsOf (startMonitoring r.deposit_address statusResps s1).2) = true := by
              rw [htr, execMatchesQuote_append, execMatchesQuote_append, hm, Bool.true_and]
              have h1 : execMatchesQuote (lastQuoteAmt none tr)
                  [ApiCall.bridgeExecute (lamportsOfString s.amount) z] = true := by
                simp only [execMatchesQuote, hQL.2, decide_eq_true_eq]
                simp
              rw [h1, Bool.true_and]
              exact execMatchesQuote_status r.deposit_address _ _ hcallsStatus
            refine ⟨⟨?_, ?_⟩, hmq⟩
            · intro hst
              exfalso
              simp only [startMonitoring] at hst
              rcases hps.2.2.2 with h | h | h <;> rw [hst] at h <;> simp [hs1] at h
            · intro _
              refine ⟨?_, ?_⟩
              · simp only [startMonitoring]
                rw [hps.2.2.1, hps.1]
                simpa [hs1] using hQL.1
              · rw [htr, lastQuoteAmt_append, lastQuoteAmt_append,
                  lastQuoteAmt_status r.deposit_address _ _ hcallsStatus]
                simp only [lastQuoteAmt, startMonitoring]
                rw [hps.1]
                simp only [hs1]
                exact hQL.2
    · simpa using ⟨hinv, hm⟩

/-- Running any action list preserves the execute-matches-quote property
of the accumulated request trace. -/
theorem runAux_inv (z : String) (bal : ℚ) :
    ∀ (acts : List UserAction) (s : ModalState) (tr : List ApiCall),
      modalInv s tr → execMatchesQuote none tr = true →
      execMatchesQuote none (runAux z bal s tr acts).2 = true
  | [], _, _, _, hm => hm
  | a :: rest, s, tr, hinv, hm => by
      have hstep := stepAction_preserves z bal s tr a hinv hm
      exact runAux_inv z bal rest _ _ hstep.1 hstep.2

/-- C10: in every run of the modal from its initial state, every execute
request carries exactly the amount_lamports of the quote request most
recently issued before it — the quote that produced the displayed quote —
because both are the same floor conversion of an amount string that cannot
change while a quote is held (editing is possible only in the input step,
and returning there clears the quote). -/
theorem bridge_C10_execute_amount_matches_quote (z : String) (bal : ℚ)
    (acts : List UserAction) :
    execMatchesQuote none (runActions z bal acts).2 = true :=
  runAux_inv z bal acts initState []
    ⟨fun _ => rfl, fun hqs => by simp [initState] at hqs⟩ rfl

end Shield
